import Mathlib

/-!
Verification of the PGA gymnastics signup backend against its specification.

The whole program lives in src/index.js.  This file gives a shallow embedding
of its data model (the mongoose schemas), of the three route handlers
(GET /classes, GET /events, POST /class-signup) and of the store primitives
they use (findOne, findOneAndUpdate with arrayFilters, find().sort), and
proves the specified properties about them.

External collaborators are modelled as executable functions:
the validator sanitizers trim/escape, the he.decode entity decoder
(restricted to the entities the escape sanitizer produces), the JavaScript
toLowerCase (restricted to basic latin letters, like Lean's Char.toLower),
and the mongoose document store, whose conditional update with array filters
is replayed on an explicit catalog value.
-/

namespace PGA

/-- Models the ASCII lowercasing applied by JavaScript toLowerCase (used at
src/index.js lines 178-179) and by the mongoose lowercase setter declared on
the four name fields of SigneeSchema (src/index.js lines 42-51).  Only basic
latin letters are mapped, exactly as Lean's Char.toLower does. -/
def jsToLower (s : String) : String := ⟨s.data.map Char.toLower⟩

/-- Models the validator trim() sanitizer used by the POST /class-signup
validators (src/index.js lines 137-152): leading and trailing whitespace is
removed. -/
def jsTrim (s : String) : String :=
  ⟨((s.data.dropWhile Char.isWhitespace).reverse.dropWhile Char.isWhitespace).reverse⟩

/-- Models the validator escape() sanitizer (src/index.js lines 137-148),
character by character: ampersand, double quote, single quote, less-than,
greater-than, slash, backslash and backtick are replaced by HTML entities. -/
def escapeChar (c : Char) : List Char :=
  if c = '&' then "&amp;".data
  else if c = '"' then "&quot;".data
  else if c = Char.ofNat 39 then "&#x27;".data
  else if c = '<' then "&lt;".data
  else if c = '>' then "&gt;".data
  else if c = '/' then "&#x2F;".data
  else if c = '\\' then "&#x5C;".data
  else if c = Char.ofNat 96 then "&#96;".data
  else [c]

/-- Models the validator escape() sanitizer on a whole string. -/
def escape (s : String) : String := ⟨s.data.flatMap escapeChar⟩

/-- Models the he.decode call of src/index.js line 167, restricted to the HTML
entities that the escape sanitizer above produces: one left-to-right pass
rewriting each such entity back to its character.  (The he library decodes a
much larger entity table; on the image of escape the two agree.) -/
def heDecodeList : List Char → List Char
  | [] => []
  | '&' :: 'a' :: 'm' :: 'p' :: ';' :: rest => '&' :: heDecodeList rest
  | '&' :: 'q' :: 'u' :: 'o' :: 't' :: ';' :: rest => '"' :: heDecodeList rest
  | '&' :: '#' :: 'x' :: '2' :: '7' :: ';' :: rest => Char.ofNat 39 :: heDecodeList rest
  | '&' :: 'l' :: 't' :: ';' :: rest => '<' :: heDecodeList rest
  | '&' :: 'g' :: 't' :: ';' :: rest => '>' :: heDecodeList rest
  | '&' :: '#' :: 'x' :: '2' :: 'F' :: ';' :: rest => '/' :: heDecodeList rest
  | '&' :: '#' :: 'x' :: '5' :: 'C' :: ';' :: rest => '\\' :: heDecodeList rest
  | '&' :: '#' :: '9' :: '6' :: ';' :: rest => Char.ofNat 96 :: heDecodeList rest
  | c :: rest => c :: heDecodeList rest

/-- Models he.decode on a String. -/
def heDecode (s : String) : String := ⟨heDecodeList s.data⟩

/-- SigneeSchema (src/index.js lines 42-51): child and parent names plus the
parent phone number.  No _id field (disabled in the schema). -/
structure Signee where
  childFirstName : String
  childLastName : String
  parentFirstName : String
  parentLastName : String
  parentPhoneNumber : String
deriving DecidableEq

/-- SessionSchema (src/index.js lines 53-59).  maxSignups and price are
mongoose Numbers, modelled as integers. -/
structure Session where
  day : String
  time : String
  maxSignups : Int
  price : Int
  signees : List Signee
deriving DecidableEq

/-- ClassSchema (src/index.js lines 61-65). -/
structure Class where
  name : String
  sessions : List Session
  id : String
deriving DecidableEq

/-- GymnasticsSchema (src/index.js lines 67-73): a catalog document holding
the classes of one season. -/
structure Gymnastics where
  classes : List Class
  season : String
deriving DecidableEq

/-- EventSchema (src/index.js lines 29-39).  The required date is modelled as
an integer timestamp, the sort key of GET /events. -/
structure Event where
  name : String
  date : Int
  duration : Int
deriving DecidableEq

/-- Outcome of the POST /class-signup handler (src/index.js lines 154-219),
one constructor per response the handler can send. -/
inductive RegResult where
  /-- 400 with the field-level validation errors (line 158). -/
  | validationError
  /-- 500 "No class data found" (line 165). -/
  | noClassData
  /-- 404 "Class not found" (line 171). -/
  | classNotFound
  /-- 404 "Session not found" (line 176). -/
  | sessionNotFound
  /-- 400 "Already signed up" (line 188). -/
  | alreadySignedUp
  /-- 400 "Session is full" (line 191). -/
  | sessionFull
  /-- 200 with message "Signup successful" (line 214). -/
  | success
deriving DecidableEq

/-- The session predicate of the handler's session lookup (src/index.js lines
173-175): exact match on both day and time. -/
def sessionMatches (day time : String) (s : Session) : Bool :=
  s.day == day && s.time == time

/-- The signee predicate of the duplicate check (src/index.js lines 181-186):
exact match of the stored child names against the lowercased request names. -/
def signeeMatches (first last : String) (s : Signee) : Bool :=
  s.childFirstName == first && s.childLastName == last

/-- The mongoose cast of a pushed signee through SigneeSchema: the
lowercase setter declared on the four name fields (src/index.js lines 44-47)
lowercases them at write time; the phone number is stored as sent. -/
def castSignee (x : Signee) : Signee :=
  { childFirstName := jsToLower x.childFirstName
    childLastName := jsToLower x.childLastName
    parentFirstName := jsToLower x.parentFirstName
    parentLastName := jsToLower x.parentLastName
    parentPhoneNumber := x.parentPhoneNumber }

/-- One session element under the update of src/index.js lines 199-212: the
arrayFilters entry for the session alias matches on day and time, and $push
appends the (schema-cast) signee to the signees of every matching element. -/
def pushSession (day time : String) (x : Signee) (s : Session) : Session :=
  if sessionMatches day time s then { s with signees := s.signees ++ [castSignee x] } else s

/-- One class element under the update: the arrayFilters entry for the class
alias matches on the class name, and every matching class element has all its
matching sessions pushed. -/
def pushClass (name day time : String) (x : Signee) (c : Class) : Class :=
  if c.name == name then { c with sessions := c.sessions.map (pushSession day time x) } else c

/-- The top-level query of the findOneAndUpdate call (src/index.js lines
200-204): the document matches when some class has the given name, some class
has a session on the given day, and some class has a session at the given
time (three independent dotted-path clauses). -/
def queryMatches (g : Gymnastics) (name day time : String) : Bool :=
  g.classes.any (fun c => c.name == name) &&
  g.classes.any (fun c => c.sessions.any (fun s => s.day == day)) &&
  g.classes.any (fun c => c.sessions.any (fun s => s.time == time))

/-- The whole Gymnastics.findOneAndUpdate call of src/index.js lines 199-212
replayed on the singleton catalog document: if the query matches, the $push
with arrayFilters is applied to every matching class/session element;
otherwise no document is updated. -/
def pushSignee (g : Gymnastics) (name day time : String) (x : Signee) : Gymnastics :=
  if queryMatches g name day time then
    { g with classes := g.classes.map (pushClass name day time x) }
  else g

/-- The POST /class-signup handler body after a successful validation and a
successful catalog read (src/index.js lines 167-214), acting on the catalog
document: decode the class name, look up the first class with that exact
name, look up its first session with the exact day and time, reject a
case-insensitive duplicate child, reject a full session, otherwise run the
findOneAndUpdate.  Returns the response together with the catalog state after
the handler ran. -/
def registerG (g : Gymnastics) (className day time : String) (x : Signee) :
    RegResult × Gymnastics :=
  match g.classes.find? (fun c => c.name == heDecode className) with
  | none => (RegResult.classNotFound, g)
  | some classItem =>
    match classItem.sessions.find? (sessionMatches day time) with
    | none => (RegResult.sessionNotFound, g)
    | some session =>
      if session.signees.any
          (signeeMatches (jsToLower x.childFirstName) (jsToLower x.childLastName)) then
        (RegResult.alreadySignedUp, g)
      else if (session.signees.length : Int) ≥ session.maxSignups then
        (RegResult.sessionFull, g)
      else
        (RegResult.success, pushSignee g (heDecode className) day time x)

/-- The handler including the Gymnastics.findOne() read (src/index.js lines
164-165): with no catalog document the handler answers 500 "No class data
found" and the store is left as is. -/
def register (db : Option Gymnastics) (className day time : String) (x : Signee) :
    RegResult × Option Gymnastics :=
  match db with
  | none => (RegResult.noClassData, none)
  | some g =>
    let r := registerG g className day time x
    (r.1, some r.2)

/-- The class/session lookup of src/index.js lines 168-176 in isolation:
first class with the given (already decoded) name, then its first session
with the given day and time. -/
def findSession (g : Gymnastics) (name day time : String) : Option Session :=
  match g.classes.find? (fun c => c.name == name) with
  | none => none
  | some c => c.sessions.find? (sessionMatches day time)

/-- A raw POST /class-signup request body, before the validators run. -/
structure RawRequest where
  className : String
  day : String
  time : String
  signee : Signee
deriving DecidableEq

/-- The trim().escape() sanitizer chain each text field goes through
(src/index.js lines 137-148). -/
def sanitizeField (s : String) : String := escape (jsTrim s)

/-- The validators mutate the request in place: every text field is trimmed
and escaped, the phone number only trimmed (src/index.js lines 137-152). -/
def sanitizeRequest (r : RawRequest) : RawRequest :=
  { className := sanitizeField r.className
    day := sanitizeField r.day
    time := sanitizeField r.time
    signee :=
      { childFirstName := sanitizeField r.signee.childFirstName
        childLastName := sanitizeField r.signee.childLastName
        parentFirstName := sanitizeField r.signee.parentFirstName
        parentLastName := sanitizeField r.signee.parentLastName
        parentPhoneNumber := jsTrim r.signee.parentPhoneNumber } }

/-- Length check of the isLength validators, on the sanitized value. -/
def lenBetween (lo hi : Nat) (s : String) : Bool :=
  decide (lo ≤ s.data.length) && decide (s.data.length ≤ hi)

/-- The validation result checked at src/index.js lines 155-159: the bounds
of the isLength validators on the sanitized fields, and the isMobilePhone
check, which is an external library predicate and is therefore a parameter. -/
def validRequest (phoneOk : String → Bool) (r : RawRequest) : Bool :=
  lenBetween 1 100 r.className && lenBetween 1 20 r.day && lenBetween 1 20 r.time &&
  lenBetween 1 50 r.signee.childFirstName && lenBetween 1 50 r.signee.childLastName &&
  lenBetween 1 50 r.signee.parentFirstName && lenBetween 1 50 r.signee.parentLastName &&
  phoneOk r.signee.parentPhoneNumber

/-- The full POST /class-signup route (src/index.js lines 133-220): sanitize,
validate (400 with the validation errors on failure, before any store
access), then run the handler. -/
def classSignup (phoneOk : String → Bool) (db : Option Gymnastics) (raw : RawRequest) :
    RegResult × Option Gymnastics :=
  let r := sanitizeRequest raw
  if validRequest phoneOk r then
    register db r.className r.day r.time r.signee
  else
    (RegResult.validationError, db)

/-- One request of a sequential execution against the signups catalog. -/
structure Request where
  className : String
  day : String
  time : String
  signee : Signee
deriving DecidableEq

/-- Sequential execution of a list of POST /class-signup handler runs against
the signups catalog, each seeing the state the previous one left. -/
def runRequests (g : Gymnastics) (rs : List Request) : Gymnastics :=
  rs.foldl (fun g r => (registerG g r.className r.day r.time r.signee).2) g

/-- A session as GET /classes reports it: the signees list replaced by its
count (src/index.js lines 91-94). -/
structure SessionView where
  day : String
  time : String
  maxSignups : Int
  price : Int
  signees : Nat
deriving DecidableEq

/-- A class as GET /classes reports it. -/
structure ClassView where
  name : String
  sessions : List SessionView
  id : String
deriving DecidableEq

/-- A catalog as GET /classes reports it (season plus classes, src/index.js
lines 105-114). -/
structure CatalogView where
  season : String
  classes : List ClassView
deriving DecidableEq

/-- The session projection of GET /classes: spread the session and replace
signees by the length of the stored list (src/index.js lines 91-94). -/
def projectSession (s : Session) : SessionView :=
  { day := s.day, time := s.time, maxSignups := s.maxSignups, price := s.price
    signees := s.signees.length }

/-- The class projection of GET /classes (src/index.js lines 89-95). -/
def projectClass (c : Class) : ClassView :=
  { name := c.name, sessions := c.sessions.map projectSession, id := c.id }

/-- The catalog projection of GET /classes. -/
def projectCatalog (g : Gymnastics) : CatalogView :=
  { season := g.season, classes := g.classes.map projectClass }

/-- Outcome of the GET /classes handler (src/index.js lines 79-119). -/
inductive ClassesResult where
  /-- 404 "Signups not found" (line 84). -/
  | signupsNotFound
  /-- 404 "Upcoming classes not found" (lines 85-86). -/
  | upcomingNotFound
  /-- 200 with both projected catalogs (lines 105-114). -/
  | ok (signups upcoming : CatalogView)
deriving DecidableEq

/-- The GET /classes handler over the two singleton catalog documents:
absent signups catalog first, then absent upcoming catalog, else the two
projections. -/
def getClasses (signupsEntry upcomingEntry : Option Gymnastics) : ClassesResult :=
  match signupsEntry with
  | none => ClassesResult.signupsNotFound
  | some s =>
    match upcomingEntry with
    | none => ClassesResult.upcomingNotFound
    | some u => ClassesResult.ok (projectCatalog s) (projectCatalog u)

/-- The ascending-by-date order GET /events requests from the store
(src/index.js line 123, sort by date 1). -/
def dateLe (a b : Event) : Prop := a.date ≤ b.date

instance : DecidableRel dateLe := fun a b => inferInstanceAs (Decidable (a.date ≤ b.date))

instance : IsTotal Event dateLe := ⟨fun a b => Int.le_total a.date b.date⟩

instance : IsTrans Event dateLe := ⟨fun _ _ _ => Int.le_trans⟩

/-- The GET /events handler (src/index.js lines 121-129): the stored events,
sorted ascending by date.  The store's sort is modelled by insertion sort
with respect to dateLe. -/
def getEvents (events : List Event) : List Event := List.insertionSort dateLe events

/-- The capacity invariant of the specification: in every session of the
catalog the signee count is at most maxSignups. -/
def capOK (g : Gymnastics) : Prop :=
  ∀ c ∈ g.classes, ∀ s ∈ c.sessions, (s.signees.length : Int) ≤ s.maxSignups

instance (g : Gymnastics) : Decidable (capOK g) := by unfold capOK; infer_instance

/-- The identity convention of the data model: class names are unique in the
catalog and (day, time) pairs are unique within each class. -/
def keysUnique (g : Gymnastics) : Prop :=
  g.classes.Pairwise (fun a b => a.name ≠ b.name) ∧
  ∀ c ∈ g.classes, c.sessions.Pairwise (fun a b => (a.day, a.time) ≠ (b.day, b.time))

instance (g : Gymnastics) : Decidable (keysUnique g) := by unfold keysUnique; infer_instance

/-- A signee whose four name fields are fixed points of lowercasing. -/
def isLowered (x : Signee) : Prop :=
  x.childFirstName = jsToLower x.childFirstName ∧
  x.childLastName = jsToLower x.childLastName ∧
  x.parentFirstName = jsToLower x.parentFirstName ∧
  x.parentLastName = jsToLower x.parentLastName

instance (x : Signee) : Decidable (isLowered x) := by unfold isLowered; infer_instance

/-- Every signee stored anywhere in the catalog has lowercase name fields. -/
def lowerOK (g : Gymnastics) : Prop :=
  ∀ c ∈ g.classes, ∀ s ∈ c.sessions, ∀ x ∈ s.signees, isLowered x

instance (g : Gymnastics) : Decidable (lowerOK g) := by unfold lowerOK; infer_instance

/-! Helper lemmas about the lowercasing model. -/

theorem toNat_toLower_of_upper {c : Char} (h : 65 ≤ c.toNat ∧ c.toNat ≤ 90) :
    c.toLower.toNat = c.toNat + 32 := by
  have hv : Nat.isValidChar (c.toNat + 32) := Or.inl (by omega)
  simp only [Char.toLower]
  rw [if_pos ⟨h.1, h.2⟩, Char.ofNat, dif_pos hv]
  rfl

theorem toLower_eq_self_of_not_upper {c : Char} (h : ¬(65 ≤ c.toNat ∧ c.toNat ≤ 90)) :
    c.toLower = c := by
  simp only [Char.toLower]
  rw [if_neg (fun hc => h ⟨hc.1, hc.2⟩)]

theorem toLower_toLower (c : Char) : c.toLower.toLower = c.toLower := by
  by_cases h : 65 ≤ c.toNat ∧ c.toNat ≤ 90
  · have h1 := toNat_toLower_of_upper h
    exact toLower_eq_self_of_not_upper (by omega)
  · rw [toLower_eq_self_of_not_upper h, toLower_eq_self_of_not_upper h]

theorem jsToLower_idem (s : String) : jsToLower (jsToLower s) = jsToLower s := by
  unfold jsToLower
  show String.mk ((s.data.map Char.toLower).map Char.toLower) = _
  rw [List.map_map]
  exact congrArg String.mk (List.map_congr_left fun c _ => toLower_toLower c)

theorem isLowered_castSignee (x : Signee) : isLowered (castSignee x) :=
  ⟨(jsToLower_idem x.childFirstName).symm, (jsToLower_idem x.childLastName).symm,
   (jsToLower_idem x.parentFirstName).symm, (jsToLower_idem x.parentLastName).symm⟩

/-! Helper lemmas about keyed lookups in lists. -/

theorem pairwise_key_eq {α β : Type} (p : α → β) {l : List α}
    (h : l.Pairwise (fun a b => p a ≠ p b)) {a b : α}
    (ha : a ∈ l) (hb : b ∈ l) (hab : p a = p b) : a = b := by
  induction h with
  | nil => cases ha
  | cons hx _ ih =>
    rcases List.mem_cons.mp ha with ha1 | ha1 <;> rcases List.mem_cons.mp hb with hb1 | hb1
    · exact ha1.trans hb1.symm
    · subst ha1; exact absurd hab (hx _ hb1)
    · subst hb1; exact absurd hab.symm (hx _ ha1)
    · exact ih ha1 hb1

/-! Helper lemmas about the findOneAndUpdate model. -/

theorem pushClass_name (name day time : String) (x : Signee) (c : Class) :
    (pushClass name day time x c).name = c.name := by
  unfold pushClass; split <;> rfl

theorem pushSession_day (day time : String) (x : Signee) (s : Session) :
    (pushSession day time x s).day = s.day := by
  unfold pushSession; split <;> rfl

theorem pushSession_time (day time : String) (x : Signee) (s : Session) :
    (pushSession day time x s).time = s.time := by
  unfold pushSession; split <;> rfl

theorem queryMatches_of_find {g : Gymnastics} {name day time : String} {c : Class} {s : Session}
    (hfc : g.classes.find? (fun cl => cl.name == name) = some c)
    (hfs : c.sessions.find? (sessionMatches day time) = some s) :
    queryMatches g name day time = true := by
  have hcm := List.mem_of_find?_eq_some hfc
  have hcp := List.find?_some hfc
  have hsm := List.mem_of_find?_eq_some hfs
  have hsp := List.find?_some hfs
  simp only [sessionMatches, Bool.and_eq_true, beq_iff_eq] at hcp hsp
  simp only [queryMatches, Bool.and_eq_true, List.any_eq_true, beq_iff_eq]
  exact ⟨⟨⟨c, hcm, hcp⟩, c, hcm, s, hsm, hsp.1⟩, c, hcm, s, hsm, hsp.2⟩

theorem pushSignee_eq {g : Gymnastics} {name day time : String} (x : Signee)
    (hq : queryMatches g name day time = true) :
    pushSignee g name day time x =
      { g with classes := g.classes.map (pushClass name day time x) } := by
  simp [pushSignee, hq]

/-- Case analysis on a run of the handler body: either the response is not a
success and the catalog is untouched, or the response is a success, the
looked-up class and session passed the duplicate and capacity checks, and the
new catalog is the result of the findOneAndUpdate. -/
theorem registerG_cases (g : Gymnastics) (n d t : String) (x : Signee) :
    ((registerG g n d t x).1 ≠ RegResult.success ∧ (registerG g n d t x).2 = g) ∨
    ((registerG g n d t x).1 = RegResult.success ∧
      ∃ c s, g.classes.find? (fun cl => cl.name == heDecode n) = some c ∧
        c.sessions.find? (sessionMatches d t) = some s ∧
        s.signees.any (signeeMatches (jsToLower x.childFirstName) (jsToLower x.childLastName))
          = false ∧
        (s.signees.length : Int) < s.maxSignups ∧
        (registerG g n d t x).2 = pushSignee g (heDecode n) d t x) := by
  rcases hfc : g.classes.find? (fun cl => cl.name == heDecode n) with _ | c
  · exact Or.inl (by simp [registerG, hfc])
  · rcases hfs : c.sessions.find? (sessionMatches d t) with _ | s
    · exact Or.inl (by simp [registerG, hfc, hfs])
    · rcases hdup : s.signees.any
          (signeeMatches (jsToLower x.childFirstName) (jsToLower x.childLastName)) with _ | _
      · by_cases hcap : (s.signees.length : Int) ≥ s.maxSignups
        · exact Or.inl (by simp [registerG, hfc, hfs, hdup, hcap])
        · exact Or.inr ⟨by simp [registerG, hfc, hfs, hdup, hcap], c, s, hfc, hfs, hdup,
            by omega, by simp [registerG, hfc, hfs, hdup, hcap]⟩
      · exact Or.inl (by simp [registerG, hfc, hfs, hdup])

/-- The capacity invariant is preserved by the findOneAndUpdate, provided
class names and (day, time) pairs are unique, because then the only pushed
session is the one whose capacity was checked. -/
theorem capOK_push {g : Gymnastics} {n d t : String} (x : Signee) {c : Class} {s : Session}
    (hu : keysUnique g) (hc : capOK g)
    (hfc : g.classes.find? (fun cl => cl.name == n) = some c)
    (hfs : c.sessions.find? (sessionMatches d t) = some s)
    (hcap : (s.signees.length : Int) < s.maxSignups) :
    capOK (pushSignee g n d t x) := by
  rw [pushSignee_eq x (queryMatches_of_find hfc hfs)]
  intro c2 hc2 s2 hs2
  rcases List.mem_map.mp hc2 with ⟨c0, hc0, rfl⟩
  by_cases hname : (c0.name == n) = true
  · simp only [pushClass, if_pos hname] at hs2
    rcases List.mem_map.mp hs2 with ⟨s0, hs0, rfl⟩
    by_cases hm : sessionMatches d t s0 = true
    · have hceq : c0 = c := by
        have hcp := List.find?_some hfc
        have hcm := List.mem_of_find?_eq_some hfc
        rw [beq_iff_eq] at hname hcp
        exact pairwise_key_eq Class.name hu.1 hc0 hcm (hname.trans hcp.symm)
      subst hceq
      have hseq : s0 = s := by
        have hsp := List.find?_some hfs
        have hsm := List.mem_of_find?_eq_some hfs
        simp only [sessionMatches, Bool.and_eq_true, beq_iff_eq] at hm hsp
        exact pairwise_key_eq (fun s => (s.day, s.time)) (hu.2 c0 hc0) hs0 hsm
          (by simp [hm.1, hm.2, hsp.1, hsp.2])
      subst hseq
      simp only [pushSession, if_pos hm, List.length_append, List.length_cons, List.length_nil]
      omega
    · simp only [pushSession, if_neg hm]
      exact hc c0 hc0 s0 hs0
  · simp only [pushClass, if_neg hname] at hs2
    exact hc c0 hc0 s2 hs2

/-- The findOneAndUpdate changes no class name and no session day or time, so
it preserves the uniqueness convention. -/
theorem keysUnique_push (g : Gymnastics) (n d t : String) (x : Signee)
    (hu : keysUnique g) : keysUnique (pushSignee g n d t x) := by
  unfold pushSignee
  split
  · refine ⟨?_, ?_⟩
    · show (g.classes.map (pushClass n d t x)).Pairwise (fun a b => a.name ≠ b.name)
      rw [List.pairwise_map]
      exact hu.1.imp (fun h => by simpa [pushClass_name] using h)
    · intro c2 hc2
      rcases List.mem_map.mp hc2 with ⟨c0, hc0, rfl⟩
      by_cases hname : (c0.name == n) = true
      · simp only [pushClass, if_pos hname]
        rw [List.pairwise_map]
        exact (hu.2 c0 hc0).imp (fun h => by simpa [pushSession_day, pushSession_time] using h)
      · simp only [pushClass, if_neg hname]
        exact hu.2 c0 hc0
  · exact hu

/-- Every signee the findOneAndUpdate stores is schema-cast, so the
all-lowercase storage invariant is preserved. -/
theorem lowerOK_push (g : Gymnastics) (n d t : String) (x : Signee)
    (hg : lowerOK g) : lowerOK (pushSignee g n d t x) := by
  unfold pushSignee
  split
  · intro c2 hc2 s2 hs2 y hy
    rcases List.mem_map.mp hc2 with ⟨c0, hc0, rfl⟩
    by_cases hname : (c0.name == n) = true
    · simp only [pushClass, if_pos hname] at hs2
      rcases List.mem_map.mp hs2 with ⟨s0, hs0, rfl⟩
      by_cases hm : sessionMatches d t s0 = true
      · simp only [pushSession, if_pos hm] at hy
        rcases List.mem_append.mp hy with hy1 | hy1
        · exact hg c0 hc0 s0 hs0 y hy1
        · have := List.mem_singleton.mp hy1
          subst this
          exact isLowered_castSignee x
      · simp only [pushSession, if_neg hm] at hy
        exact hg c0 hc0 s0 hs0 y hy
    · simp only [pushClass, if_neg hname] at hs2
      exact hg c0 hc0 s2 hs2 y hy
  · exact hg

/-- One handler run preserves the capacity invariant and the uniqueness
convention. -/
theorem registerG_preserves_inv (g : Gymnastics) (n d t : String) (x : Signee)
    (hu : keysUnique g) (hc : capOK g) :
    keysUnique (registerG g n d t x).2 ∧ capOK (registerG g n d t x).2 := by
  rcases registerG_cases g n d t x with ⟨_, h2⟩ | ⟨_, c, s, hfc, hfs, _, hcap, h2⟩
  · rw [h2]; exact ⟨hu, hc⟩
  · rw [h2]
    exact ⟨keysUnique_push g (heDecode n) d t x hu, capOK_push x hu hc hfc hfs hcap⟩

/-- One handler run preserves the all-lowercase storage invariant. -/
theorem registerG_preserves_lower (g : Gymnastics) (n d t : String) (x : Signee)
    (hg : lowerOK g) : lowerOK (registerG g n d t x).2 := by
  rcases registerG_cases g n d t x with ⟨_, h2⟩ | ⟨_, c, s, hfc, hfs, _, _, h2⟩
  · rw [h2]; exact hg
  · rw [h2]; exact lowerOK_push g (heDecode n) d t x hg

/-- Sequential executions preserve capacity and uniqueness together. -/
theorem runRequests_inv (rs : List Request) : ∀ g : Gymnastics, keysUnique g → capOK g →
    keysUnique (runRequests g rs) ∧ capOK (runRequests g rs) := by
  induction rs with
  | nil => exact fun _ hu hc => ⟨hu, hc⟩
  | cons r rs ih =>
    intro g hu hc
    have h := registerG_preserves_inv g r.className r.day r.time r.signee hu hc
    exact ih _ h.1 h.2

/-- Sequential executions preserve the all-lowercase storage invariant. -/
theorem runRequests_lower (rs : List Request) : ∀ g : Gymnastics, lowerOK g →
    lowerOK (runRequests g rs) := by
  induction rs with
  | nil => exact fun _ hg => hg
  | cons r rs ih =>
    exact fun g hg => ih _ (registerG_preserves_lower g r.className r.day r.time r.signee hg)

/-- The session lookup under the findOneAndUpdate: after the push, the first
class with the looked-up name is the pushed image of the class found before,
and its first session with the looked-up day and time is the pushed image of
the session found before. -/
theorem find_after_push {g : Gymnastics} {n d t : String} {c : Class} {s : Session}
    (hfc : g.classes.find? (fun cl => cl.name == n) = some c)
    (hfs : c.sessions.find? (sessionMatches d t) = some s) (x : Signee) :
    (pushSignee g n d t x).classes.find? (fun cl => cl.name == n)
        = some (pushClass n d t x c) ∧
    (pushClass n d t x c).sessions.find? (sessionMatches d t)
        = some (pushSession d t x s) := by
  constructor
  · rw [pushSignee_eq x (queryMatches_of_find hfc hfs)]
    show (g.classes.map (pushClass n d t x)).find? (fun cl => cl.name == n) = _
    rw [List.find?_map]
    have hcomp : ((fun cl => cl.name == n) ∘ pushClass n d t x) = (fun cl => cl.name == n) :=
      funext fun cl => by simp [Function.comp, pushClass_name]
    rw [hcomp, hfc, Option.map_some']
  · have hname := List.find?_some hfc
    simp only [pushClass, if_pos hname]
    rw [List.find?_map]
    have hcomp : (sessionMatches d t ∘ pushSession d t x) = sessionMatches d t :=
      funext fun s0 => by simp [Function.comp, sessionMatches, pushSession_day, pushSession_time]
    rw [hcomp, hfs, Option.map_some']

/-- Bool form of the session lookup predicate. -/
theorem sessionMatches_iff {d t : String} {s : Session} :
    sessionMatches d t s = true ↔ (s.day = d ∧ s.time = t) := by
  simp [sessionMatches]

/-! Concrete fixtures used by the witnesses and counterexamples. -/

/-- A request signee with mixed-case names. -/
def xAna : Signee := ⟨"Ana", "Lee", "Pat", "Lee", "5551234"⟩

/-- The same child as xAna under a different letter case. -/
def xAna2 : Signee := ⟨"ANA", "lee", "Sam", "Lee", "5550000"⟩

/-- A session with room for two signees. -/
def sW : Session := ⟨"Mon", "4:00pm", 2, 30, []⟩

/-- A class holding the one session sW. -/
def clsW : Class := ⟨"Tumbling", [sW], "c1"⟩

/-- A well-formed one-class catalog. -/
def gW : Gymnastics := ⟨[clsW], "fall"⟩

/-- A catalog whose only class has two sessions with the same (day, time)
pair, the second one with capacity zero: the convention that (day, time) is
unique within a class is broken. -/
def gDup : Gymnastics :=
  ⟨[⟨"A", [⟨"Mon", "4", 1, 0, []⟩, ⟨"Mon", "4", 0, 0, []⟩], "c1"⟩], "fall"⟩

/-- A session at capacity whose only signee is the stored (lowercased) child
of xAna. -/
def sFull : Session := ⟨"Mon", "4", 1, 0, [⟨"ana", "lee", "pat", "lee", "5551234"⟩]⟩

/-- A catalog whose only session is sFull. -/
def gFull : Gymnastics := ⟨[⟨"A", [sFull], "c1"⟩], "fall"⟩

/-- A session at capacity with an unrelated stored signee. -/
def sFull2 : Session := ⟨"Mon", "4", 1, 0, [⟨"ben", "kim", "jo", "kim", "5559876"⟩]⟩

/-- A catalog whose only session is sFull2. -/
def gFull2 : Gymnastics := ⟨[⟨"A", [sFull2], "c1"⟩], "fall"⟩

/-! Claim theorems. -/

/-- C1 (amended): under sequential execution, starting from a signups catalog
that satisfies the capacity invariant and the identity convention (unique
class names, unique (day, time) pairs within a class), after any sequence of
register operations every session still satisfies
len(signees) <= maxSignups.  (Failed operations leave the catalog untouched,
so the sequence may also be read as the subsequence of successful ones.) -/
theorem signup_capacity_invariant (g : Gymnastics) (rs : List Request)
    (hu : keysUnique g) (hc : capOK g) : capOK (runRequests g rs) :=
  (runRequests_inv rs g hu hc).2

/-- Witness for C1: a concrete catalog satisfying both hypotheses, and the
invariant after a concrete successful registration. -/
theorem signup_capacity_invariant_witness :
    keysUnique gW ∧ capOK gW ∧
      capOK (runRequests gW [⟨"Tumbling", "Mon", "4:00pm", xAna⟩]) :=
  ⟨by decide, by decide,
    signup_capacity_invariant gW [⟨"Tumbling", "Mon", "4:00pm", xAna⟩] (by decide) (by decide)⟩

/-- Counterexample for C1 as stated: gDup satisfies the capacity invariant, a
single register operation succeeds, and afterwards the invariant is broken —
the $push with arrayFilters also appended to the second (day, time)-duplicate
session, whose capacity (zero) was never checked. -/
theorem signup_capacity_invariant_cex :
    capOK gDup ∧
    (registerG gDup "A" "Mon" "4" xAna).1 = RegResult.success ∧
    ¬ capOK (runRequests gDup [⟨"A", "Mon", "4", xAna⟩]) := by decide

/-- C2: if a register operation for child x succeeded, then a second register
operation in the same session for the same child name pair, regardless of
letter case, answers 400 "Already signed up", leaves the catalog untouched,
and the session holds exactly one stored signee with that child name pair. -/
theorem duplicate_signup_rejected (g g2 : Gymnastics) (n d t : String) (x x2 : Signee)
    (h1 : registerG g n d t x = (RegResult.success, g2))
    (hfn : jsToLower x2.childFirstName = jsToLower x.childFirstName)
    (hln : jsToLower x2.childLastName = jsToLower x.childLastName) :
    registerG g2 n d t x2 = (RegResult.alreadySignedUp, g2) ∧
    ∃ sess, findSession g2 (heDecode n) d t = some sess ∧
      (sess.signees.filter
        (signeeMatches (jsToLower x2.childFirstName) (jsToLower x2.childLastName))).length
        = 1 := by
  rcases registerG_cases g n d t x with ⟨hne, _⟩ | ⟨_, c, s, hfc, hfs, hdup, _, h2⟩
  · rw [h1] at hne; exact absurd rfl hne
  · have hg2 : g2 = pushSignee g (heDecode n) d t x := by
      have := congrArg Prod.snd h1
      simp only at this
      rw [← this, h2]
    subst hg2
    have hfind := find_after_push hfc hfs x
    have hm := List.find?_some hfs
    have hpush : pushSession d t x s = { s with signees := s.signees ++ [castSignee x] } := by
      simp [pushSession, hm]
    have hmatch : signeeMatches (jsToLower x2.childFirstName) (jsToLower x2.childLastName)
        (castSignee x) = true := by
      simp [signeeMatches, castSignee, hfn, hln]
    constructor
    · have hdup2 : (pushSession d t x s).signees.any
          (signeeMatches (jsToLower x2.childFirstName) (jsToLower x2.childLastName)) = true := by
        rw [hpush]
        simp only [List.any_append, List.any_cons, List.any_nil, Bool.or_false]
        rw [hmatch, Bool.or_true]
      simp [registerG, hfind.1, hfind.2, hdup2]
    · refine ⟨pushSession d t x s, ?_, ?_⟩
      · simp [findSession, hfind.1, hfind.2]
      · rw [hpush]
        simp only [List.filter_append]
        have hnil : s.signees.filter
            (signeeMatches (jsToLower x2.childFirstName) (jsToLower x2.childLastName)) = [] := by
          rw [List.filter_eq_nil_iff]
          intro a ha
          rw [hfn, hln]
          exact List.any_eq_false.mp hdup a ha
        rw [hnil]
        simp [hmatch]

/-- Witness for C2: registering Ana Lee succeeds, registering ANA lee in the
same session afterwards is rejected as a duplicate, and exactly one matching
signee is stored. -/
theorem duplicate_signup_rejected_witness :
    registerG (registerG gW "Tumbling" "Mon" "4:00pm" xAna).2 "Tumbling" "Mon" "4:00pm" xAna2
        = (RegResult.alreadySignedUp, (registerG gW "Tumbling" "Mon" "4:00pm" xAna).2) ∧
    ∃ sess, findSession (registerG gW "Tumbling" "Mon" "4:00pm" xAna).2
        (heDecode "Tumbling") "Mon" "4:00pm" = some sess ∧
      (sess.signees.filter (signeeMatches (jsToLower xAna2.childFirstName)
        (jsToLower xAna2.childLastName))).length = 1 :=
  duplicate_signup_rejected gW (registerG gW "Tumbling" "Mon" "4:00pm" xAna).2
    "Tumbling" "Mon" "4:00pm" xAna xAna2 (by decide) (by decide) (by decide)

/-- C3 (amended): registering into a session already at maxSignups, for a
child not already signed up in it, answers 400 "Session is full" and leaves
the catalog — in particular the signee count — unchanged.  (When the child is
already signed up, the duplicate check of src/index.js line 188 fires first
and the response is "Already signed up" instead; the catalog is untouched
either way.) -/
theorem session_full_rejected (g : Gymnastics) (n d t : String) (x : Signee) (sess : Session)
    (hf : findSession g (heDecode n) d t = some sess)
    (hdup : sess.signees.any
      (signeeMatches (jsToLower x.childFirstName) (jsToLower x.childLastName)) = false)
    (hcap : (sess.signees.length : Int) ≥ sess.maxSignups) :
    registerG g n d t x = (RegResult.sessionFull, g) := by
  unfold findSession at hf
  rcases hfc : g.classes.find? (fun cl => cl.name == heDecode n) with _ | c
  · rw [hfc] at hf; cases hf
  · rw [hfc] at hf
    have hf2 : c.sessions.find? (sessionMatches d t) = some sess := hf
    simp [registerG, hfc, hf2, hdup, hcap]

/-- Witness for C3: registering Ana into the full session sFull2 answers 400
"Session is full" and leaves the catalog unchanged. -/
theorem session_full_rejected_witness :
    registerG gFull2 "A" "Mon" "4" xAna = (RegResult.sessionFull, gFull2) :=
  session_full_rejected gFull2 "A" "Mon" "4" xAna sFull2 (by decide) (by decide) (by decide)

/-- Counterexample for C3 as stated: the session sFull is at capacity, yet a
register operation for the child it already holds does not answer
"Session is full" — the duplicate check fires first. -/
theorem session_full_rejected_cex :
    findSession gFull (heDecode "A") "Mon" "4" = some sFull ∧
    (sFull.signees.length : Int) ≥ sFull.maxSignups ∧
    (registerG gFull "A" "Mon" "4" xAna).1 = RegResult.alreadySignedUp ∧
    (registerG gFull "A" "Mon" "4" xAna).1 ≠ RegResult.sessionFull := by decide

/-- C4: when no class carries the entity-decoded className the handler
answers 404 "Class not found"; when the located class has no session with the
exact (day, time) pair it answers 404 "Session not found"; in both cases the
catalog is unchanged. -/
theorem class_session_not_found (g : Gymnastics) (n d t : String) (x : Signee) :
    ((∀ c ∈ g.classes, c.name ≠ heDecode n) →
      registerG g n d t x = (RegResult.classNotFound, g)) ∧
    (∀ c, g.classes.find? (fun cl => cl.name == heDecode n) = some c →
      (∀ s ∈ c.sessions, ¬(s.day = d ∧ s.time = t)) →
      registerG g n d t x = (RegResult.sessionNotFound, g)) := by
  constructor
  · intro h
    have hn : g.classes.find? (fun cl => cl.name == heDecode n) = none :=
      List.find?_eq_none.mpr (fun c hc => by simpa using h c hc)
    simp [registerG, hn]
  · intro c h1 h2
    have hn : c.sessions.find? (sessionMatches d t) = none :=
      List.find?_eq_none.mpr (fun s hs => by simpa [sessionMatches] using h2 s hs)
    simp [registerG, h1, hn]

/-- Witness for C4: an unknown class name gives "Class not found", a known
class with an unknown day gives "Session not found", both without mutation. -/
theorem class_session_not_found_witness :
    registerG gW "Unknown" "Mon" "4:00pm" xAna = (RegResult.classNotFound, gW) ∧
    registerG gW "Tumbling" "Tue" "4:00pm" xAna = (RegResult.sessionNotFound, gW) :=
  ⟨(class_session_not_found gW "Unknown" "Mon" "4:00pm" xAna).1 (by decide),
   (class_session_not_found gW "Tumbling" "Tue" "4:00pm" xAna).2 clsW (by decide) (by decide)⟩

/-- An always-accepting stand-in for the external isMobilePhone predicate. -/
def phoneOkW : String → Bool := fun _ => true

/-- A well-formed raw request for the session of gW. -/
def rawW : RawRequest := ⟨"Tumbling", "Mon", "4:00pm", xAna⟩

/-- C5: the POST /class-signup route leaves the stored catalog untouched on
every non-success response (validation error, missing catalog, class or
session not found, duplicate, full session), and on a success response the
new store state is exactly the old one with the single findOneAndUpdate
applied. -/
theorem register_single_mutation (phoneOk : String → Bool) (db : Option Gymnastics)
    (raw : RawRequest) :
    ((classSignup phoneOk db raw).1 ≠ RegResult.success →
      (classSignup phoneOk db raw).2 = db) ∧
    ((classSignup phoneOk db raw).1 = RegResult.success →
      ∃ g, db = some g ∧
        (classSignup phoneOk db raw).2 = some (pushSignee g
          (heDecode (sanitizeRequest raw).className) (sanitizeRequest raw).day
          (sanitizeRequest raw).time (sanitizeRequest raw).signee)) := by
  simp only [classSignup]
  by_cases hv : validRequest phoneOk (sanitizeRequest raw) = true
  · rw [if_pos hv]
    cases db with
    | none =>
      constructor
      · intro _; rfl
      · intro h; cases h
    | some g =>
      simp only [register]
      rcases registerG_cases g (sanitizeRequest raw).className (sanitizeRequest raw).day
          (sanitizeRequest raw).time (sanitizeRequest raw).signee with ⟨hne, h2⟩ | ⟨heq, _, _, _, _, _, _, h2⟩
      · constructor
        · intro _; rw [h2]
        · intro h; exact absurd h hne
      · constructor
        · intro h; exact absurd heq h
        · intro _; exact ⟨g, rfl, by rw [h2]⟩
  · rw [if_neg hv]
    constructor
    · intro _; rfl
    · intro h; cases h

/-- Witness for C5: the missing-catalog failure path leaves the store as is,
and a concrete successful signup produces exactly the pushed catalog. -/
theorem register_single_mutation_witness :
    (classSignup phoneOkW none rawW).2 = none ∧
    ∃ g, some gW = some g ∧
      (classSignup phoneOkW (some gW) rawW).2 = some (pushSignee g
        (heDecode (sanitizeRequest rawW).className) (sanitizeRequest rawW).day
        (sanitizeRequest rawW).time (sanitizeRequest rawW).signee) :=
  ⟨(register_single_mutation phoneOkW none rawW).1 (by decide),
   (register_single_mutation phoneOkW (some gW) rawW).2 (by decide)⟩

/-- C6: the signee stored by a register operation has its four name fields
lowercased at write time (the schema cast), and consequently, starting from a
catalog whose stored signees are all lowercase, every signee present after
any sequence of register operations has lowercase name fields. -/
theorem lowercase_at_write (g : Gymnastics) (rs : List Request) (hg : lowerOK g) :
    (∀ x : Signee, isLowered (castSignee x)) ∧ lowerOK (runRequests g rs) :=
  ⟨isLowered_castSignee, runRequests_lower rs g hg⟩

/-- Witness for C6: a concrete all-lowercase catalog, and the invariant after
a concrete registration with mixed-case input names. -/
theorem lowercase_at_write_witness :
    lowerOK gW ∧
    ((∀ x : Signee, isLowered (castSignee x)) ∧
      lowerOK (runRequests gW [⟨"Tumbling", "Mon", "4:00pm", xAna⟩])) :=
  ⟨by decide, lowercase_at_write gW [⟨"Tumbling", "Mon", "4:00pm", xAna⟩] (by decide)⟩

/-- C7: with both singleton catalogs present, GET /classes answers with the
two projected catalogs, and in the projection every session's signees field
is the integer length of the session's stored signee list (the projected
session type carries no signee records at all, so no personal data can be
in the response). -/
theorem classes_signee_counts (sg up : Gymnastics) :
    getClasses (some sg) (some up) = ClassesResult.ok (projectCatalog sg) (projectCatalog up) ∧
    ∀ (g : Gymnastics) (i j : Nat) (c : Class) (cv : ClassView) (s : Session) (sv : SessionView),
      g.classes[i]? = some c → (projectCatalog g).classes[i]? = some cv →
      c.sessions[j]? = some s → cv.sessions[j]? = some sv →
      sv.signees = s.signees.length := by
  refine ⟨rfl, ?_⟩
  intro g i j c cv s sv hc hcv hs hsv
  simp only [projectCatalog, List.getElem?_map, hc, Option.map_some', Option.some.injEq] at hcv
  subst hcv
  simp only [projectClass, List.getElem?_map, hs, Option.map_some', Option.some.injEq] at hsv
  subst hsv
  rfl

/-- The projection of sW: the signees list is replaced by the count zero. -/
def svW : SessionView := ⟨"Mon", "4:00pm", 2, 30, 0⟩

/-- The projection of clsW. -/
def cvW : ClassView := ⟨"Tumbling", [svW], "c1"⟩

/-- Witness for C7: in the projection of the concrete catalog gW, the
reported signees field of the one session equals its stored count. -/
theorem classes_signee_counts_witness :
    svW.signees = sW.signees.length :=
  (classes_signee_counts gW gW).2 gW 0 0 clsW cvW sW svW (by decide) (by decide)
    (by decide) (by decide)

/-- C8: the array GET /events returns is sorted ascending by date: every
element's date is at most the next element's date. -/
theorem events_sorted_by_date (events : List Event) (i : Nat)
    (h : i + 1 < (getEvents events).length) :
    ((getEvents events).get ⟨i, Nat.lt_of_succ_lt h⟩).date ≤
      ((getEvents events).get ⟨i + 1, h⟩).date := by
  have hs : List.Sorted dateLe (getEvents events) := List.sorted_insertionSort dateLe events
  exact List.pairwise_iff_get.mp hs ⟨i, Nat.lt_of_succ_lt h⟩ ⟨i + 1, h⟩
    (Fin.mk_lt_mk.mpr (Nat.lt_succ_self i))

/-- A concrete store of events, out of order. -/
def evW : List Event := [⟨"b", 5, 1⟩, ⟨"a", 3, 1⟩]

/-- Witness for C8: on the concrete unsorted store evW the first returned
event's date is at most the second returned event's date. -/
theorem events_sorted_by_date_witness :
    ((getEvents evW).get ⟨0, by decide⟩).date ≤ ((getEvents evW).get ⟨1, by decide⟩).date :=
  events_sorted_by_date evW 0 (by decide)

/-- A raw request whose day field contains an ampersand. -/
def rawAmp : RawRequest := ⟨"A", "4&5", "t", xAna⟩

/-- A session stored with the raw, unescaped day text of rawAmp. -/
def sRawAmp : Session := ⟨"4&5", "t", 2, 0, []⟩

/-- A class holding only the raw-day session. -/
def clsRawAmp : Class := ⟨"A", [sRawAmp], "c1"⟩

/-- A catalog holding only clsRawAmp. -/
def gRawAmp : Gymnastics := ⟨[clsRawAmp], "fall"⟩

/-- A session stored with the escaped day text that the sanitizer produces
from the day field of rawAmp. -/
def sEscAmp : Session := ⟨"4&amp;5", "t", 2, 0, []⟩

/-- A class holding the escaped-day session next to the raw-day session. -/
def clsEscAmp : Class := ⟨"A", [sEscAmp, sRawAmp], "c1"⟩

/-- A catalog holding only clsEscAmp. -/
def gEscAmp : Gymnastics := ⟨[clsEscAmp], "fall"⟩

/-- C9 (amended): only className is entity-decoded before comparison; day and
time are compared in their sanitized (escaped) form.  Hence when the located
class has no session whose stored (day, time) equals the escaped values —
in particular when sessions store raw text and escaping altered the values —
the route answers 404 "Session not found" with no mutation. -/
theorem escaped_day_time_lookup (phoneOk : String → Bool) (g : Gymnastics) (raw : RawRequest)
    (c : Class)
    (hv : validRequest phoneOk (sanitizeRequest raw) = true)
    (hfc : g.classes.find? (fun cl => cl.name == heDecode (sanitizeField raw.className))
      = some c)
    (hfs : ∀ s ∈ c.sessions,
      ¬(s.day = sanitizeField raw.day ∧ s.time = sanitizeField raw.time)) :
    classSignup phoneOk (some g) raw = (RegResult.sessionNotFound, some g) := by
  have hn : c.sessions.find?
      (sessionMatches (sanitizeField raw.day) (sanitizeField raw.time)) = none :=
    List.find?_eq_none.mpr (fun s hs => by simpa [sessionMatches] using hfs s hs)
  simp only [classSignup]
  rw [if_pos hv]
  simp only [register, sanitizeRequest]
  simp [registerG, hfc, hn]

/-- Witness for C9: the day "4&5" is altered by escaping, the stored session
sRawAmp matches the raw input exactly, and yet the signup answers 404
"Session not found" because the lookup uses the escaped day. -/
theorem escaped_day_time_lookup_witness :
    sanitizeField "4&5" ≠ "4&5" ∧
    sRawAmp ∈ clsRawAmp.sessions ∧ sRawAmp.day = "4&5" ∧ sRawAmp.time = "t" ∧
    classSignup phoneOkW (some gRawAmp) rawAmp = (RegResult.sessionNotFound, some gRawAmp) :=
  ⟨by decide, by decide, by decide, by decide,
   escaped_day_time_lookup phoneOkW gRawAmp rawAmp clsRawAmp (by decide) (by decide)
     (by decide)⟩

/-- Counterexample for C9 as stated: the day "4&5" is altered by escaping and
the class does contain a session whose stored raw (day, time) matches the
original input, yet the result is not SessionNotFound, because another
session stores the escaped text "4&amp;5" and is matched instead. -/
theorem escaped_day_time_lookup_cex :
    sanitizeField "4&5" ≠ "4&5" ∧
    gEscAmp.classes = [clsEscAmp] ∧ clsEscAmp.name = "A" ∧
    sRawAmp ∈ clsEscAmp.sessions ∧ sRawAmp.day = "4&5" ∧ sRawAmp.time = "t" ∧
    rawAmp.className = "A" ∧ rawAmp.day = "4&5" ∧ rawAmp.time = "t" ∧
    (classSignup phoneOkW (some gEscAmp) rawAmp).1 ≠ RegResult.sessionNotFound := by decide

/-- A session with room, duplicated inside the class below. -/
def sDup10 : Session := ⟨"Mon", "4", 2, 0, []⟩

/-- A class holding two sessions with the same (day, time) pair. -/
def clsDup10 : Class := ⟨"A", [sDup10, sDup10], "c1"⟩

/-- A catalog holding only clsDup10. -/
def gDup10 : Gymnastics := ⟨[clsDup10], "fall"⟩

/-- C10: on a successful register, the $push with arrayFilters appends the
cast signee to EVERY session element whose (day, time) matches inside every
class element whose name matches the decoded className, and leaves every
other session untouched: positionally, each session of the old catalog is
either extended by the one pushed signee (when class name, day and time all
match) or kept as is. -/
theorem push_all_matching (g g2 : Gymnastics) (n d t : String) (x : Signee)
    (h1 : registerG g n d t x = (RegResult.success, g2)) :
    ∀ (i j : Nat) (c : Class) (s : Session),
      g.classes[i]? = some c → c.sessions[j]? = some s →
      ∃ c2 s2, g2.classes[i]? = some c2 ∧ c2.sessions[j]? = some s2 ∧
        s2 = (if c.name = heDecode n ∧ s.day = d ∧ s.time = t
              then { s with signees := s.signees ++ [castSignee x] } else s) := by
  rcases registerG_cases g n d t x with ⟨hne, _⟩ | ⟨_, c1, s1, hfc, hfs, _, _, h2⟩
  · rw [h1] at hne; exact absurd rfl hne
  · have hg2 : g2 = pushSignee g (heDecode n) d t x := by
      have hsnd := congrArg Prod.snd h1
      simp only at hsnd
      rw [← hsnd, h2]
    subst hg2
    rw [pushSignee_eq x (queryMatches_of_find hfc hfs)]
    intro i j c s hc hs
    by_cases hname : c.name = heDecode n
    · have hnb : (c.name == heDecode n) = true := beq_iff_eq.mpr hname
      rcases hmb : sessionMatches d t s with _ | _
      · have hm : ¬(s.day = d ∧ s.time = t) := fun hcon => by
          simp [sessionMatches_iff.mpr hcon] at hmb
        refine ⟨pushClass (heDecode n) d t x c, s, ?_, ?_, ?_⟩
        · simp [List.getElem?_map, hc]
        · simp [pushClass, hnb, List.getElem?_map, hs, pushSession, hmb]
        · rw [if_neg (fun hcon => hm ⟨hcon.2.1, hcon.2.2⟩)]
      · have hm := sessionMatches_iff.mp hmb
        refine ⟨pushClass (heDecode n) d t x c,
          { s with signees := s.signees ++ [castSignee x] }, ?_, ?_, ?_⟩
        · simp [List.getElem?_map, hc]
        · simp [pushClass, hnb, List.getElem?_map, hs, pushSession, hmb]
        · rw [if_pos ⟨hname, hm.1, hm.2⟩]
    · have hnb : (c.name == heDecode n) = false := by
        rw [Bool.eq_false_iff]
        intro hcon
        exact hname (beq_iff_eq.mp hcon)
      refine ⟨pushClass (heDecode n) d t x c, s, ?_, ?_, ?_⟩
      · simp [List.getElem?_map, hc]
      · simp [pushClass, hnb, hs]
      · rw [if_neg (fun hcon => hname hcon.1)]

/-- Witness for C10: in gDup10 the class has two sessions with the same
(day, time); a single successful register appends the signee also to the
second session, the one whose capacity and duplicates were never checked. -/
theorem push_all_matching_witness :
    (registerG gDup10 "A" "Mon" "4" xAna).1 = RegResult.success ∧
    ∃ c2 s2, (registerG gDup10 "A" "Mon" "4" xAna).2.classes[0]? = some c2 ∧
      c2.sessions[1]? = some s2 ∧
      s2 = (if clsDup10.name = heDecode "A" ∧ sDup10.day = "Mon" ∧ sDup10.time = "4"
            then { sDup10 with signees := sDup10.signees ++ [castSignee xAna] } else sDup10) :=
  ⟨by decide,
   push_all_matching gDup10 (registerG gDup10 "A" "Mon" "4" xAna).2 "A" "Mon" "4" xAna
     (by decide) 0 1 clsDup10 sDup10 (by decide) (by decide)⟩

end PGA
